import Mathlib

set_option maxRecDepth 2000

/-!
Verification of `src/lib/common/grpc-service.js` (gcloud-node).

The file shallowly embeds the components of `GrpcService` that the
specification talks about: the value codec (`encodeValue_`, `objToStruct_`,
`decodeValue_`, `structToObj_`), the error translator
(`GRPC_ERROR_CODE_TO_HTTP`, `getError_`), the retry predicate
(`shouldRetryRequest_`), the final callback disambiguation inside
`GrpcService.prototype.request`, the credential gate
(`getGrpcCredentials_` plus the gate at the top of `request`), and the
service registry (`getService_`).
-/

/- ### The native JavaScript value model

`encodeValue_` dispatches with the `is` library: `is.null`, `is.number`,
`is.string`, `is.boolean`, `Buffer.isBuffer`, `is.object` (true exactly for
plain objects, `[object Object]`), `is.array`.  Values reaching none of
those branches (`undefined`, functions, symbols, ...) fall into the final
`else`.  `other tyName strRep` stands for any such value, carrying its
`typeof` string and its `String(value)` coercion. -/

mutual

inductive JSVal where
  | undef
  | null
  | num (n : Int)
  | str (s : String)
  | bool (b : Bool)
  | blob (bytes : List Nat)
  | obj (props : JSFields)
  | arr (elems : JSList)
  | other (tyName strRep : String)

/-- The own enumerable properties of a plain JavaScript object, in
iteration order.  JavaScript objects never hold two properties with the
same key. -/
inductive JSFields where
  | nil
  | cons (key : String) (value : JSVal) (rest : JSFields)

inductive JSList where
  | nil
  | cons (head : JSVal) (tail : JSList)

end

deriving instance DecidableEq for JSVal

/-- `is.undefined(value)`. -/
def is_undefined : JSVal → Bool
  | .undef => true
  | _ => false

/-- The `typeof` operator, used by the error message of `encodeValue_`. -/
def jsTypeof : JSVal → String
  | .undef => "undefined"
  | .null => "object"
  | .num _ => "number"
  | .str _ => "string"
  | .bool _ => "boolean"
  | .blob _ => "object"
  | .obj _ => "object"
  | .arr _ => "object"
  | .other tyName _ => tyName

/-- The `String(value)` coercion used by the `stringify` fallback of
`encodeValue_`. -/
def jsString : JSVal → String
  | .undef => "undefined"
  | .null => "null"
  | .num n => toString n
  | .str s => s
  | .bool b => if b then "true" else "false"
  | .blob _ => "[object Object]"
  | .obj _ => "[object Object]"
  | .arr _ => ""
  | .other _ strRep => strRep

/- ### The wire value model (protobuf `Struct`)

An encoded value is a JavaScript object holding exactly one type-tagged
payload property (`nullValue`, `numberValue`, ...) and, on values that
came over the wire through the protobuf layer, a `kind` property naming
the set payload tag.  `encodeValue_` itself never writes `kind`, so the
model keeps it as an `Option String`. -/

mutual

inductive WireVal where
  | mk (kind : Option String) (payload : WirePayload)

inductive WirePayload where
  | nullValue
  | numberValue (n : Int)
  | stringValue (s : String)
  | boolValue (b : Bool)
  | blobValue (bytes : List Nat)
  | structValue (s : WireStructMsg)
  | listValue (l : WireListMsg)

/-- A `Struct` message: the object `\x7bfields: ...\x7d` built by
`objToStruct_`. -/
inductive WireStructMsg where
  | mk (fields : WireFields)

/-- A `ListValue` message: the object `\x7bvalues: [...]\x7d` built by the
array branch of `encodeValue_`. -/
inductive WireListMsg where
  | mk (values : WireList)

inductive WireFields where
  | nil
  | cons (key : String) (value : WireVal) (rest : WireFields)

inductive WireList where
  | nil
  | cons (head : WireVal) (tail : WireList)

end

def WireStructMsg.fields : WireStructMsg → WireFields
  | .mk fs => fs

def WireListMsg.values : WireListMsg → WireList
  | .mk vs => vs

def WireVal.kind : WireVal → Option String
  | .mk k _ => k

def WireVal.payload : WireVal → WirePayload
  | .mk _ p => p

/-- The `options` argument of `encodeValue_` / `objToStruct_`;
`options.stringify` is read as a truthy flag. -/
structure EncodeOptions where
  stringify : Bool := false

/- ### Encoding: `GrpcService.encodeValue_` and `GrpcService.objToStruct_`
(grpc-service.js lines 389-435 and 527-547).

Fidelity notes, each forced by the source:
* the object branch calls `GrpcService.objToStruct_(value)` with NO
  options argument, so the nested call runs with `\x7b\x7d` (line 416);
* the array branch is `value.map(GrpcService.encodeValue_)`:
  `Array.prototype.map` passes the element index as the second argument,
  and a number has no `stringify` property, so each element is encoded
  exactly as with empty options (lines 418-423);
* `objToStruct_` skips own properties whose value `is.undefined`
  (lines 538-540) and forwards its own `options` to `encodeValue_`
  (line 542);
* a thrown `Error` is modelled by `Except.error` carrying the message. -/

mutual

def encodeValue_ (value : JSVal) (options : EncodeOptions) :
    Except String WireVal :=
  match value with
  | .null => .ok (.mk none .nullValue)
  | .num n => .ok (.mk none (.numberValue n))
  | .str s => .ok (.mk none (.stringValue s))
  | .bool b => .ok (.mk none (.boolValue b))
  | .blob bytes => .ok (.mk none (.blobValue bytes))
  | .obj props =>
    match objToStruct_ props {} with
    | .error msg => .error msg
    | .ok s => .ok (.mk none (.structValue s))
  | .arr elems =>
    match encodeListElems elems with
    | .error msg => .error msg
    | .ok vs => .ok (.mk none (.listValue (.mk vs)))
  | v =>
    if options.stringify then .ok (.mk none (.stringValue (jsString v)))
    else .error ("Value of type " ++ jsTypeof v ++ " not recognized.")

def objToStruct_ (props : JSFields) (options : EncodeOptions) :
    Except String WireStructMsg :=
  match props with
  | .nil => .ok (.mk .nil)
  | .cons k v rest =>
    if is_undefined v then objToStruct_ rest options
    else
      match encodeValue_ v options with
      | .error msg => .error msg
      | .ok w =>
        match objToStruct_ rest options with
        | .error msg => .error msg
        | .ok s => .ok (.mk (.cons k w s.fields))

def encodeListElems (elems : JSList) : Except String WireList :=
  match elems with
  | .nil => .ok .nil
  | .cons v rest =>
    match encodeValue_ v {} with
    | .error msg => .error msg
    | .ok w =>
      match encodeListElems rest with
      | .error msg => .error msg
      | .ok ws => .ok (.cons w ws)

end

/- ### Decoding: `GrpcService.decodeValue_` and `GrpcService.structToObj_`
(grpc-service.js lines 353-371 and 570-581).

`decodeValue_` switches on `value.kind`.  The `default` arm returns
`value[value.kind]`: a dynamic property read on the leaf object, which
yields the payload when `kind` names the set tag, the `kind` string
itself when `kind` is the string `kind`, and `undefined` otherwise
(including when `kind` is absent, since `value[undefined]` reads the
missing property named `undefined`).  Reading `.fields` or
`.listValue.values` off a missing message throws a `TypeError`, modelled
with `Except.error`. -/

/-- The dynamic property read `value[k]` on an encoded leaf, restricted to
the payload properties.  Only reachable from the `default` arm of the
switch, so `k` is never `structValue`, `nullValue` or `listValue`. -/
def payloadLookup (payload : WirePayload) (k : String) : JSVal :=
  match payload with
  | .nullValue => if k = "nullValue" then .num 0 else .undef
  | .numberValue n => if k = "numberValue" then .num n else .undef
  | .stringValue s => if k = "stringValue" then .str s else .undef
  | .boolValue b => if k = "boolValue" then .bool b else .undef
  | .blobValue bytes => if k = "blobValue" then .blob bytes else .undef
  | .structValue _ => .undef
  | .listValue _ => .undef

mutual

def decodeValue_ (value : WireVal) : Except String JSVal :=
  match value with
  | .mk kind payload =>
    match kind with
    | none => .ok .undef
    | some k =>
      if k = "structValue" then
        match payload with
        | .structValue s => structToObj_ s
        | _ => .error "TypeError: Cannot read property of undefined"
      else if k = "nullValue" then .ok .null
      else if k = "listValue" then
        match payload with
        | .listValue l => decodeListMsg l
        | _ => .error "TypeError: Cannot read property of undefined"
      else if k = "kind" then .ok (.str k)
      else .ok (payloadLookup payload k)

def structToObj_ (struct : WireStructMsg) : Except String JSVal :=
  match struct with
  | .mk fields =>
    match decodeFields fields with
    | .error msg => .error msg
    | .ok props => .ok (.obj props)

def decodeFields (fields : WireFields) : Except String JSFields :=
  match fields with
  | .nil => .ok .nil
  | .cons k w rest =>
    match decodeValue_ w with
    | .error msg => .error msg
    | .ok v =>
      match decodeFields rest with
      | .error msg => .error msg
      | .ok vs => .ok (.cons k v vs)

def decodeListMsg (l : WireListMsg) : Except String JSVal :=
  match l with
  | .mk values =>
    match decodeList values with
    | .error msg => .error msg
    | .ok elems => .ok (.arr elems)

def decodeList (values : WireList) : Except String JSList :=
  match values with
  | .nil => .ok .nil
  | .cons w rest =>
    match decodeValue_ w with
    | .error msg => .error msg
    | .ok v =>
      match decodeList rest with
      | .error msg => .error msg
      | .ok vs => .ok (.cons v vs)

end

deriving instance DecidableEq for WireVal

/- ### The `kind` discriminator added by the protobuf wire layer

`encodeValue_` never writes a `kind` property, while `decodeValue_`
dispatches on one; on a real call the protobuf layer serialises the
encoded struct and the deserialised message carries `kind` naming the
set payload tag.  `withKind` models exactly that annotation step. -/

/-- The name of the set payload tag, as the protobuf layer reports it in
the `kind` property. -/
def kindOf : WirePayload → String
  | .nullValue => "nullValue"
  | .numberValue _ => "numberValue"
  | .stringValue _ => "stringValue"
  | .boolValue _ => "boolValue"
  | .blobValue _ => "blobValue"
  | .structValue _ => "structValue"
  | .listValue _ => "listValue"

mutual

def withKind (w : WireVal) : WireVal :=
  match w with
  | .mk _ payload => .mk (some (kindOf payload)) (withKindPayload payload)

def withKindPayload (p : WirePayload) : WirePayload :=
  match p with
  | .structValue (.mk fields) => .structValue (.mk (withKindFields fields))
  | .listValue (.mk values) => .listValue (.mk (withKindList values))
  | .nullValue => .nullValue
  | .numberValue n => .numberValue n
  | .stringValue s => .stringValue s
  | .boolValue b => .boolValue b
  | .blobValue bytes => .blobValue bytes

def withKindFields (fields : WireFields) : WireFields :=
  match fields with
  | .nil => .nil
  | .cons k w rest => .cons k (withKind w) (withKindFields rest)

def withKindList (values : WireList) : WireList :=
  match values with
  | .nil => .nil
  | .cons w rest => .cons (withKind w) (withKindList rest)

end

/-- `withKind` applied below the `fields` wrapper of a `Struct` message. -/
def withKindStruct : WireStructMsg → WireStructMsg
  | .mk fields => .mk (withKindFields fields)

/- ### Plain composite values

The class of values claim C1 quantifies over: built solely from null,
number, string, boolean, blob, nested plain object and array, with no
undefined fields anywhere (and hence no value of an unrecognized type). -/

mutual

def isPlain (v : JSVal) : Bool :=
  match v with
  | .undef => false
  | .null => true
  | .num _ => true
  | .str _ => true
  | .bool _ => true
  | .blob _ => true
  | .obj props => isPlainFields props
  | .arr elems => isPlainList elems
  | .other _ _ => false

def isPlainFields (props : JSFields) : Bool :=
  match props with
  | .nil => true
  | .cons _ v rest => isPlain v && isPlainFields rest

def isPlainList (elems : JSList) : Bool :=
  match elems with
  | .nil => true
  | .cons v rest => isPlain v && isPlainList rest

end

/- ### The error translator (grpc-service.js lines 43-128 and 458-463) -/

/-- One entry of `GRPC_ERROR_CODE_TO_HTTP`: an HTTP-like status code and
message. -/
structure HttpEntry where
  code : Int
  message : String
deriving DecidableEq

/-- The fixed map of protobuf codes to HTTP status codes
(grpc-service.js lines 43-128): a JavaScript object keyed by the
transport code. -/
def GRPC_ERROR_CODE_TO_HTTP : List (Int × HttpEntry) :=
  [(0, ⟨200, "OK"⟩),
   (1, ⟨499, "Client Closed Request"⟩),
   (2, ⟨500, "Internal Server Error"⟩),
   (3, ⟨400, "Bad Request"⟩),
   (4, ⟨504, "Gateway Timeout"⟩),
   (5, ⟨404, "Not Found"⟩),
   (6, ⟨409, "Conflict"⟩),
   (7, ⟨403, "Forbidden"⟩),
   (8, ⟨429, "Too Many Requests"⟩),
   (9, ⟨412, "Precondition Failed"⟩),
   (10, ⟨409, "Conflict"⟩),
   (11, ⟨400, "Bad Request"⟩),
   (12, ⟨501, "Not Implemented"⟩),
   (13, ⟨500, "Internal Server Error"⟩),
   (14, ⟨503, "Service Unavailable"⟩),
   (15, ⟨500, "Internal Server Error"⟩),
   (16, ⟨401, "Unauthorized"⟩)]

/-- The property read `GRPC_ERROR_CODE_TO_HTTP[code]`: `undefined`
(here `none`) when `code` is not a key of the object. -/
def tableGet : List (Int × HttpEntry) → Int → Option HttpEntry
  | [], _ => none
  | (k, entry) :: rest, code =>
    if k = code then some entry else tableGet rest code

/-- A gRPC error object: its `code`, its `message`, and its remaining own
fields (stack, metadata, ...), modelled as an association list of
string-valued properties. -/
structure GrpcErrorObj where
  code : Int
  message : String
  details : List (String × String)
deriving DecidableEq

/-- `GrpcService.getError_` (grpc-service.js lines 458-463):
`extend(true, \x7b\x7d, err, GRPC_ERROR_CODE_TO_HTTP[err.code])` builds a
deep copy of `err` whose `code` and `message` are replaced by the table
entry, every other field kept; a code absent from the table yields
`null`. -/
def getError_ (err : GrpcErrorObj) : Option GrpcErrorObj :=
  match tableGet GRPC_ERROR_CODE_TO_HTTP err.code with
  | some entry => some ⟨entry.code, entry.message, err.details⟩
  | none => none

/- ### The retry predicate (grpc-service.js lines 473-475) -/

/-- The terminal-or-retry response handed to `retry-request`; the
predicate only reads its `code`. -/
structure RetryResponse where
  code : Int
deriving DecidableEq

/-- `Array.prototype.indexOf`, returning the first index of `x` or
`-1`. -/
def arrayIndexOf (xs : List Int) (x : Int) (start : Int) : Int :=
  match xs with
  | [] => -1
  | y :: ys => if y = x then start else arrayIndexOf ys x (start + 1)

/-- `GrpcService.shouldRetryRequest_` (grpc-service.js lines 473-475):
`[429, 500, 502, 503].indexOf(response.code) > -1`. -/
def shouldRetryRequest_ (response : RetryResponse) : Bool :=
  arrayIndexOf [429, 500, 502, 503] response.code 0 > -1

/- ### The final callback of `GrpcService.prototype.request`
(grpc-service.js lines 230-270)

`respError` retains the normalized error of the last attempt (`null`
when the last attempt succeeded or produced an unmapped error).  The
terminal callback of `retry-request` runs

    if (!err && resp === respError) \x7b err = respError; resp = null; \x7d
    callback(err, resp);

`===` on objects is reference identity, so references are modelled as
numbered tokens, with `null` and `undefined` kept distinct. -/

inductive JSRef where
  | null
  | undef
  | ref (id : Nat)
deriving DecidableEq

/-- JavaScript truthiness of a reference-or-null-or-undefined value:
every object is truthy. -/
def jsTruthy : JSRef → Bool
  | .null => false
  | .undef => false
  | .ref _ => true

/-- The pair `(err, resp)` the user callback finally receives from
`GrpcService.prototype.request` (grpc-service.js lines 263-270). -/
def requestFinalCallback (respError err resp : JSRef) : JSRef × JSRef :=
  if jsTruthy err = false ∧ resp = respError then (respError, .null)
  else (err, resp)

/- ### The credential gate (grpc-service.js lines 197-217 and 592-606) -/

/-- The raw auth client handed back by
`this.authClient.getAuthClient`. -/
structure AuthClient where
  token : String
deriving DecidableEq

/-- Channel credentials as built from the `grpc.credentials`
primitives. -/
inductive GrpcCredential where
  | createSsl
  | createFromGoogleCredential (client : AuthClient)
  | combineChannelCredentials (a b : GrpcCredential)
  | createInsecure
deriving DecidableEq

/-- `GrpcService.prototype.getGrpcCredentials_` (grpc-service.js lines
592-606): on provider failure the error is passed through; on success
the SSL channel credential is combined with the credential derived from
the auth client.  The one round trip to the external provider is
modelled by its result. -/
def getGrpcCredentials_ (getAuthClientResult : Except String AuthClient) :
    Except String GrpcCredential :=
  match getAuthClientResult with
  | .error e => .error e
  | .ok authClient =>
    .ok (.combineChannelCredentials .createSsl
      (.createFromGoogleCredential authClient))

/-- How one call of `GrpcService.prototype.request` leaves the
credential gate: the user callback is invoked with the acquisition
error, or the body after the gate runs with established credentials. -/
inductive CredGateOutcome where
  | callbackError (e : String)
  | proceed (credentials : GrpcCredential)
deriving DecidableEq

/-- Result of running the credential gate at the top of
`GrpcService.prototype.request`: the cache field `this.grpcCredentials`
after the call, whether `getAuthClient` was invoked, and the outcome. -/
structure CredGateResult where
  grpcCredentials : Option GrpcCredential
  providerInvoked : Bool
  outcome : CredGateOutcome
deriving DecidableEq

/-- The credential gate of `GrpcService.prototype.request`
(grpc-service.js lines 204-217): with no cached credentials it runs
`getGrpcCredentials_`; on error the user callback receives the error and
the cache stays empty; on success `self.grpcCredentials` is set and the
method re-enters, now finding the cache filled.  With cached credentials
the body proceeds at once, never consulting the provider. -/
def requestCredGate (grpcCredentials : Option GrpcCredential)
    (getAuthClientResult : Except String AuthClient) : CredGateResult :=
  match grpcCredentials with
  | some credentials => ⟨some credentials, false, .proceed credentials⟩
  | none =>
    match getGrpcCredentials_ getAuthClientResult with
    | .error e => ⟨none, true, .callbackError e⟩
    | .ok credentials => ⟨some credentials, true, .proceed credentials⟩

/- ### The service registry (grpc-service.js lines 652-673) -/

/-- A constructed service stub: `new proto[protoOpts.service](
this.baseUrl, this.grpcCredentials)`.  `id` models the object identity
of the freshly constructed instance. -/
structure ProtoService where
  id : Nat
  serviceName : String
  baseUrl : String
  grpcCredentials : Option GrpcCredential
deriving DecidableEq

/-- The instance state `getService_` reads and writes: the base URL and
credentials the stub is bound to, the map `this.activeServiceMap_`, and
a counter supplying fresh object identities. -/
structure RegistryState where
  baseUrl : String
  grpcCredentials : Option GrpcCredential
  activeServiceMap_ : List (String × ProtoService)
  nextId : Nat
deriving DecidableEq

/-- `Map.prototype.get`, `undefined` (here `none`) on a missing key. -/
def mapGet (m : List (String × ProtoService)) (k : String) :
    Option ProtoService :=
  match m with
  | [] => none
  | (k', s) :: rest => if k' = k then some s else mapGet rest k

/-- `GrpcService.prototype.getService_` (grpc-service.js lines 652-673):
looks `protoOpts.service` up in `this.activeServiceMap_`; on a miss it
constructs a stub bound to `this.baseUrl` and `this.grpcCredentials` and
stores it in the map; on a hit it returns the cached stub and leaves the
state untouched. -/
def getService_ (st : RegistryState) (serviceName : String) :
    ProtoService × RegistryState :=
  match mapGet st.activeServiceMap_ serviceName with
  | some service => (service, st)
  | none =>
    let service : ProtoService :=
      ⟨st.nextId, serviceName, st.baseUrl, st.grpcCredentials⟩
    (service,
      ⟨st.baseUrl, st.grpcCredentials,
        (serviceName, service) :: st.activeServiceMap_, st.nextId + 1⟩)

/- ### Helper lemmas -/

theorem isPlain_not_undefined (v : JSVal) (h : isPlain v = true) :
    is_undefined v = false := by
  cases v <;> simp_all [isPlain, is_undefined]

mutual

theorem encode_decode_plain : ∀ (v : JSVal) (options : EncodeOptions),
    isPlain v = true →
    ∃ w, encodeValue_ v options = .ok w ∧ decodeValue_ (withKind w) = .ok v
  | .undef, _, h => by simp [isPlain] at h
  | .other _ _, _, h => by simp [isPlain] at h
  | .null, _, _ => ⟨.mk none .nullValue, rfl, rfl⟩
  | .num n, _, _ => ⟨.mk none (.numberValue n), rfl, rfl⟩
  | .str s, _, _ => ⟨.mk none (.stringValue s), rfl, rfl⟩
  | .bool b, _, _ => ⟨.mk none (.boolValue b), rfl, rfl⟩
  | .blob bytes, _, _ => ⟨.mk none (.blobValue bytes), rfl, rfl⟩
  | .obj props, options, h => by
      have hp : isPlainFields props = true := by simpa [isPlain] using h
      obtain ⟨fs, he, hd⟩ := encode_decode_plain_fields props {} hp
      refine ⟨.mk none (.structValue (.mk fs)), ?_, ?_⟩
      · simp [encodeValue_, he]
      · simp [withKind, withKindPayload, kindOf, decodeValue_, structToObj_, hd]
  | .arr elems, options, h => by
      have hp : isPlainList elems = true := by simpa [isPlain] using h
      obtain ⟨ws, he, hd⟩ := encode_decode_plain_list elems hp
      refine ⟨.mk none (.listValue (.mk ws)), ?_, ?_⟩
      · simp [encodeValue_, he]
      · simp [withKind, withKindPayload, kindOf, decodeValue_, decodeListMsg, hd]

theorem encode_decode_plain_fields : ∀ (props : JSFields)
    (options : EncodeOptions), isPlainFields props = true →
    ∃ fs, objToStruct_ props options = .ok (.mk fs) ∧
      decodeFields (withKindFields fs) = .ok props
  | .nil, _, _ => ⟨.nil, rfl, rfl⟩
  | .cons k v rest, options, h => by
      have h1 : isPlain v = true ∧ isPlainFields rest = true := by
        simpa [isPlainFields, Bool.and_eq_true] using h
      obtain ⟨w, he, hd⟩ := encode_decode_plain v options h1.1
      obtain ⟨fs, hes, hds⟩ := encode_decode_plain_fields rest options h1.2
      refine ⟨.cons k w fs, ?_, ?_⟩
      · simp [objToStruct_, isPlain_not_undefined v h1.1, he, hes,
          WireStructMsg.fields]
      · simp [withKindFields, decodeFields, hd, hds]

theorem encode_decode_plain_list : ∀ (elems : JSList),
    isPlainList elems = true →
    ∃ ws, encodeListElems elems = .ok ws ∧
      decodeList (withKindList ws) = .ok elems
  | .nil, _ => ⟨.nil, rfl, rfl⟩
  | .cons v rest, h => by
      have h1 : isPlain v = true ∧ isPlainList rest = true := by
        simpa [isPlainList, Bool.and_eq_true] using h
      obtain ⟨w, he, hd⟩ := encode_decode_plain v {} h1.1
      obtain ⟨ws, hes, hds⟩ := encode_decode_plain_list rest h1.2
      refine ⟨.cons w ws, ?_, ?_⟩
      · simp [encodeListElems, he, hes]
      · simp [withKindList, decodeList, hd, hds]

end

/-- The keys of an encoded struct's `fields` map, in order. -/
def WireFields.keys : WireFields → List String
  | .nil => []
  | .cons k _ rest => k :: keys rest

/-- The keys of an object's own enumerable properties whose value is not
`undefined`, in iteration order. -/
def JSFields.definedKeys : JSFields → List String
  | .nil => []
  | .cons k v rest =>
    if is_undefined v then definedKeys rest else k :: definedKeys rest

/-- Values reaching the final `else` of `encodeValue_`: none of `is.null`,
`is.number`, `is.string`, `is.boolean`, `Buffer.isBuffer`, `is.object`,
`is.array` holds for them. -/
def isUnrecognizedType : JSVal → Bool
  | .undef => true
  | .other _ _ => true
  | _ => false

/-- `v` occurs among the elements of a JavaScript array. -/
inductive JSList.Mem (v : JSVal) : JSList → Prop where
  | head (rest : JSList) : JSList.Mem v (.cons v rest)
  | tail (w : JSVal) (rest : JSList) :
      JSList.Mem v rest → JSList.Mem v (.cons w rest)

/-- The object holds an own enumerable property named `k` with value
`v`. -/
inductive JSFields.Mem (k : String) (v : JSVal) : JSFields → Prop where
  | head (rest : JSFields) : JSFields.Mem k v (.cons k v rest)
  | tail (k2 : String) (w : JSVal) (rest : JSFields) :
      JSFields.Mem k v rest → JSFields.Mem k v (.cons k2 w rest)

theorem encodeValue_default_error (v : JSVal)
    (h : isUnrecognizedType v = true) :
    encodeValue_ v {} =
      .error ("Value of type " ++ jsTypeof v ++ " not recognized.") := by
  cases v <;> simp_all [isUnrecognizedType, encodeValue_]

theorem encodeListElems_mem_error (v : JSVal) (elems : JSList)
    (hm : JSList.Mem v elems) (hv : isUnrecognizedType v = true) :
    ∃ msg, encodeListElems elems = .error msg := by
  induction hm with
  | head rest =>
    exact ⟨"Value of type " ++ jsTypeof v ++ " not recognized.",
      by simp [encodeListElems, encodeValue_default_error v hv]⟩
  | tail w rest _hm ih =>
    cases he : encodeValue_ w {} with
    | error msg => exact ⟨msg, by simp [encodeListElems, he]⟩
    | ok w2 =>
      obtain ⟨msg, hmsg⟩ := ih
      exact ⟨msg, by simp [encodeListElems, he, hmsg]⟩

theorem objToStruct_mem_error (props : JSFields) (k : String) (v : JSVal)
    (options : EncodeOptions) (hm : JSFields.Mem k v props)
    (hu : is_undefined v = false)
    (he : ∃ m0, encodeValue_ v options = .error m0) :
    ∃ msg, objToStruct_ props options = .error msg := by
  induction hm with
  | head rest =>
    obtain ⟨m0, hm0⟩ := he
    exact ⟨m0, by simp [objToStruct_, hu, hm0]⟩
  | tail k2 w rest _hm ih =>
    obtain ⟨msg, hmsg⟩ := ih
    cases hu2 : is_undefined w with
    | true => exact ⟨msg, by simp [objToStruct_, hu2, hmsg]⟩
    | false =>
      cases he2 : encodeValue_ w options with
      | error m2 => exact ⟨m2, by simp [objToStruct_, hu2, he2]⟩
      | ok w2 => exact ⟨msg, by simp [objToStruct_, hu2, he2, hmsg]⟩

/- ### Claim theorems -/

/-- C1 (counterexample): the claim as frozen fails on the code.
`encodeValue_` writes no `kind` property, and `decodeValue_` dispatches
on `kind`, so the direct composition maps the field `a : "hi"` of the
encoded-then-decoded object to `undefined`, not back to `"hi"`. -/
theorem structToObj_objToStruct_noKind_counterexample :
    objToStruct_ (.cons "a" (.str "hi") .nil) ⟨false⟩ =
      .ok (.mk (.cons "a" (.mk none (.stringValue "hi")) .nil)) ∧
    structToObj_ (.mk (.cons "a" (.mk none (.stringValue "hi")) .nil)) =
      .ok (.obj (.cons "a" .undef .nil)) ∧
    JSVal.obj (.cons "a" .undef .nil) ≠
      JSVal.obj (.cons "a" (.str "hi") .nil) := by
  refine ⟨rfl, rfl, by decide⟩

/-- C1 (amended): once every encoded leaf is annotated with the `kind`
discriminator naming its set tag — exactly what the protobuf wire layer
does before `decodeValue_` ever sees a value — decoding the encoded
struct returns `v`: for every object `v` composed solely of null,
number, string, boolean, blob, nested plain-object and array values with
no undefined fields,
`structToObj_(withKind(objToStruct_(v, options))) == v`. -/
theorem structToObj_withKind_objToStruct_roundTrip (props : JSFields)
    (options : EncodeOptions) (h : isPlainFields props = true) :
    ∃ s, objToStruct_ props options = .ok s ∧
      structToObj_ (withKindStruct s) = .ok (.obj props) := by
  obtain ⟨fs, he, hd⟩ := encode_decode_plain_fields props options h
  exact ⟨.mk fs, he, by simp [withKindStruct, structToObj_, hd]⟩

theorem structToObj_withKind_objToStruct_roundTrip_witness :
    isPlainFields (.cons "n" (.num 7) (.cons "o"
      (.obj (.cons "b" (.bool true) .nil))
      (.cons "l" (.arr (.cons .null .nil)) .nil))) = true ∧
    ∃ s, objToStruct_ (.cons "n" (.num 7) (.cons "o"
        (.obj (.cons "b" (.bool true) .nil))
        (.cons "l" (.arr (.cons .null .nil)) .nil))) ⟨false⟩ = .ok s ∧
      structToObj_ (withKindStruct s) =
        .ok (.obj (.cons "n" (.num 7) (.cons "o"
          (.obj (.cons "b" (.bool true) .nil))
          (.cons "l" (.arr (.cons .null .nil)) .nil)))) :=
  ⟨rfl, structToObj_withKind_objToStruct_roundTrip _ ⟨false⟩ rfl⟩

/-- C2: `shouldRetryRequest_(response)` is true exactly when
`response.code` is one of 429, 500, 502, 503; in particular it is false
for 404, for 504 (the HTTP-like code the table assigns to
deadline-exceeded, transport code 4, so a timeout is terminal) and for
401. -/
theorem shouldRetryRequest_iff :
    (∀ response : RetryResponse,
        shouldRetryRequest_ response = true ↔
          response.code = 429 ∨ response.code = 500 ∨
          response.code = 502 ∨ response.code = 503) ∧
    shouldRetryRequest_ ⟨404⟩ = false ∧
    tableGet GRPC_ERROR_CODE_TO_HTTP 4 = some ⟨504, "Gateway Timeout"⟩ ∧
    shouldRetryRequest_ ⟨504⟩ = false ∧
    shouldRetryRequest_ ⟨401⟩ = false := by
  refine ⟨fun response => ?_, by decide, by decide, by decide, by decide⟩
  obtain ⟨c⟩ := response
  simp only [shouldRetryRequest_, arrayIndexOf, decide_eq_true_eq]
  split_ifs <;> omega

/-- C3: for every error whose `code` is in the table (the codes 0..16 are
all present), `getError_` returns a copy of the error whose `code` and
`message` are replaced by the table entry while every other original
field is preserved; for every error whose `code` is absent from the
table (exactly the codes outside 0..16, e.g. 17), `getError_` returns
null. -/
theorem tableGet_eq_none (l : List (Int × HttpEntry)) (c : Int)
    (h : ∀ p ∈ l, p.1 ≠ c) : tableGet l c = none := by
  induction l with
  | nil => rfl
  | cons p rest ih =>
    obtain ⟨k, entry⟩ := p
    simp only [tableGet]
    rw [if_neg (h (k, entry) (List.mem_cons_self _ _))]
    exact ih fun q hq => h q (List.mem_cons_of_mem _ hq)

theorem getError_spec (err : GrpcErrorObj) :
    (∀ entry, tableGet GRPC_ERROR_CODE_TO_HTTP err.code = some entry →
        getError_ err = some ⟨entry.code, entry.message, err.details⟩) ∧
    (tableGet GRPC_ERROR_CODE_TO_HTTP err.code = none →
        getError_ err = none) ∧
    (0 ≤ err.code → err.code ≤ 16 →
        (tableGet GRPC_ERROR_CODE_TO_HTTP err.code).isSome = true) ∧
    (err.code < 0 ∨ 16 < err.code →
        tableGet GRPC_ERROR_CODE_TO_HTTP err.code = none) := by
  obtain ⟨c, m, d⟩ := err
  refine ⟨fun entry h => ?_, fun h => ?_, fun h1 h2 => ?_, fun h => ?_⟩
  · simp only [getError_, h]
  · simp only [getError_, h]
  · simp only at h1 h2
    interval_cases c <;> rfl
  · simp only at h
    refine tableGet_eq_none _ _ ?_
    intro p hp
    fin_cases hp <;> dsimp only <;> omega

theorem getError_spec_witness :
    getError_ ⟨4, "Deadline exceeded", [("stack", "trace")]⟩ =
      some ⟨504, "Gateway Timeout", [("stack", "trace")]⟩ ∧
    getError_ ⟨17, "unknown code", [("stack", "trace")]⟩ = none := by
  constructor
  · exact (getError_spec ⟨4, "Deadline exceeded", [("stack", "trace")]⟩).1
      ⟨504, "Gateway Timeout"⟩ (by decide)
  · exact (getError_spec ⟨17, "unknown code", [("stack", "trace")]⟩).2.1
      (by decide)

/-- C4 (counterexample): the claim as frozen fails on the code.  The
final handler also requires the retry layer's terminal error argument to
be falsy: with a truthy terminal error (here `ref 1`) and a response
reference-identical to the stored normalized error (`ref 0`), the
callback receives `(ref 1, ref 0)`, not the stored error with a null
response as the claim demands. -/
theorem requestFinalCallback_counterexample :
    requestFinalCallback (.ref 0) (.ref 1) (.ref 0) = (.ref 1, .ref 0) ∧
    ((JSRef.ref 1 : JSRef), (JSRef.ref 0 : JSRef)) ≠
      ((JSRef.ref 0 : JSRef), (JSRef.null : JSRef)) := by
  decide

/-- C4 (amended): in the unary call path, when the retry layer's terminal
callback reports no error (a falsy error argument), the caller's
callback is invoked with the stored normalized error and a null response
if the terminal response is reference-identical to that stored error,
and with the payload as a success otherwise; when the retry layer
reports an error, the callback receives that error and the response
unchanged. -/
theorem requestFinalCallback_spec (respError err resp : JSRef) :
    (jsTruthy err = false →
      (resp = respError →
          requestFinalCallback respError err resp = (respError, .null)) ∧
      (resp ≠ respError →
          requestFinalCallback respError err resp = (err, resp))) ∧
    (jsTruthy err = true →
        requestFinalCallback respError err resp = (err, resp)) := by
  refine ⟨fun hf => ⟨fun he => ?_, fun hne => ?_⟩, fun ht => ?_⟩
  · simp only [requestFinalCallback, if_pos (And.intro hf he)]
  · simp only [requestFinalCallback]
    rw [if_neg]
    exact fun hc => hne hc.2
  · simp only [requestFinalCallback]
    rw [if_neg]
    exact fun hc => by rw [ht] at hc; exact absurd hc.1 (by decide)

theorem requestFinalCallback_spec_witness :
    jsTruthy JSRef.null = false ∧
    requestFinalCallback (.ref 3) .null (.ref 3) = (.ref 3, .null) ∧
    requestFinalCallback (.ref 3) .null (.ref 4) = (.null, .ref 4) :=
  ⟨rfl,
    ((requestFinalCallback_spec (.ref 3) .null (.ref 3)).1 rfl).1 rfl,
    ((requestFinalCallback_spec (.ref 3) .null (.ref 4)).1 rfl).2
      (by decide)⟩

/-- C5: if credential acquisition fails, `request` invokes the callback
with the acquisition error and `this.grpcCredentials` stays unset, so a
later call consults the provider again; after one successful
acquisition the combined credential is cached, and any call that finds
the cache filled proceeds without invoking the provider. -/
theorem requestCredGate_spec
    (getAuthClientResult : Except String AuthClient) :
    (∀ e, getAuthClientResult = .error e →
        requestCredGate none getAuthClientResult =
          ⟨none, true, .callbackError e⟩) ∧
    (∀ client, getAuthClientResult = .ok client →
        requestCredGate none getAuthClientResult =
          ⟨some (.combineChannelCredentials .createSsl
              (.createFromGoogleCredential client)), true,
            .proceed (.combineChannelCredentials .createSsl
              (.createFromGoogleCredential client))⟩) ∧
    (∀ credentials,
        requestCredGate (some credentials) getAuthClientResult =
          ⟨some credentials, false, .proceed credentials⟩) := by
  refine ⟨fun e he => ?_, fun client hc => ?_, fun credentials => rfl⟩
  · rw [he]; rfl
  · rw [hc]; rfl

theorem requestCredGate_spec_witness :
    requestCredGate none (.error "could not get auth client") =
      ⟨none, true, .callbackError "could not get auth client"⟩ ∧
    requestCredGate none (.ok ⟨"token"⟩) =
      ⟨some (.combineChannelCredentials .createSsl
          (.createFromGoogleCredential ⟨"token"⟩)), true,
        .proceed (.combineChannelCredentials .createSsl
          (.createFromGoogleCredential ⟨"token"⟩))⟩ ∧
    requestCredGate
        (some (.combineChannelCredentials .createSsl
          (.createFromGoogleCredential ⟨"token"⟩)))
        (.error "provider must not be consulted") =
      ⟨some (.combineChannelCredentials .createSsl
          (.createFromGoogleCredential ⟨"token"⟩)), false,
        .proceed (.combineChannelCredentials .createSsl
          (.createFromGoogleCredential ⟨"token"⟩))⟩ :=
  ⟨(requestCredGate_spec _).1 "could not get auth client" rfl,
    (requestCredGate_spec _).2.1 ⟨"token"⟩ rfl,
    (requestCredGate_spec _).2.2 _⟩

/-- C6: `getService_` keeps at most one stub per service name.  On a
cache miss it constructs a stub bound to the instance's base URL and
current credentials (with a fresh object identity) and stores it in
`this.activeServiceMap_`; on a hit it returns the cached stub and leaves
the state untouched; in particular a second call with the same name
returns the instance the first call stored, constructing nothing. -/
theorem getService_spec (st : RegistryState) (serviceName : String) :
    (mapGet st.activeServiceMap_ serviceName = none →
        getService_ st serviceName =
          (⟨st.nextId, serviceName, st.baseUrl, st.grpcCredentials⟩,
            ⟨st.baseUrl, st.grpcCredentials,
              (serviceName,
                ⟨st.nextId, serviceName, st.baseUrl,
                  st.grpcCredentials⟩) :: st.activeServiceMap_,
              st.nextId + 1⟩)) ∧
    (∀ service, mapGet st.activeServiceMap_ serviceName = some service →
        getService_ st serviceName = (service, st)) ∧
    (getService_ (getService_ st serviceName).2 serviceName =
        ((getService_ st serviceName).1,
          (getService_ st serviceName).2)) := by
  refine ⟨fun h => ?_, fun service h => ?_, ?_⟩
  · simp only [getService_, h]
  · simp only [getService_, h]
  · cases h : mapGet st.activeServiceMap_ serviceName with
    | some service => simp only [getService_, h]
    | none => simp [getService_, h, mapGet]

theorem getService_spec_witness :
    mapGet ([] : List (String × ProtoService)) "Datastore" = none ∧
    getService_ ⟨"https://base", some .createInsecure, [], 0⟩
        "Datastore" =
      (⟨0, "Datastore", "https://base", some .createInsecure⟩,
        ⟨"https://base", some .createInsecure,
          [("Datastore",
            ⟨0, "Datastore", "https://base", some .createInsecure⟩)],
          1⟩) ∧
    getService_
        ⟨"https://base", some .createInsecure,
          [("Datastore",
            ⟨0, "Datastore", "https://base", some .createInsecure⟩)],
          1⟩ "Datastore" =
      (⟨0, "Datastore", "https://base", some .createInsecure⟩,
        ⟨"https://base", some .createInsecure,
          [("Datastore",
            ⟨0, "Datastore", "https://base", some .createInsecure⟩)],
          1⟩) :=
  ⟨rfl,
    (getService_spec ⟨"https://base", some .createInsecure, [], 0⟩
        "Datastore").1 rfl,
    (getService_spec _ "Datastore").2.1
      ⟨0, "Datastore", "https://base", some .createInsecure⟩ rfl⟩

/-- C7: the struct built by `objToStruct_` holds exactly the own
enumerable properties of the object whose value is not undefined, in
iteration order; a property set to undefined is absent from the result
rather than encoded as a null leaf. -/
theorem objToStruct_definedKeys : ∀ (props : JSFields)
    (options : EncodeOptions) (s : WireStructMsg),
    objToStruct_ props options = .ok s →
    WireFields.keys s.fields = JSFields.definedKeys props
  | .nil, options, s, h => by
    simp only [objToStruct_] at h
    cases h
    rfl
  | .cons k v rest, options, s, h => by
    by_cases hu : is_undefined v = true
    · simp only [objToStruct_, if_pos hu] at h
      simp only [JSFields.definedKeys, if_pos hu]
      exact objToStruct_definedKeys rest options s h
    · rw [Bool.not_eq_true] at hu
      simp only [objToStruct_, hu, Bool.false_eq_true, if_false] at h
      cases he : encodeValue_ v options with
      | error msg => rw [he] at h; cases h
      | ok w =>
        rw [he] at h
        cases hr : objToStruct_ rest options with
        | error msg => rw [hr] at h; cases h
        | ok s2 =>
          rw [hr] at h
          cases h
          simp only [JSFields.definedKeys, hu, Bool.false_eq_true,
            if_false, WireStructMsg.fields, WireFields.keys]
          exact congrArg (k :: ·) (objToStruct_definedKeys rest options s2 hr)

theorem objToStruct_definedKeys_witness :
    objToStruct_ (.cons "kept" (.num 1) (.cons "dropped" .undef .nil))
        ⟨false⟩ =
      .ok (.mk (.cons "kept" (.mk none (.numberValue 1)) .nil)) ∧
    WireFields.keys (.cons "kept" (.mk none (.numberValue 1)) .nil) =
      JSFields.definedKeys
        (.cons "kept" (.num 1) (.cons "dropped" .undef .nil)) ∧
    JSFields.definedKeys
        (.cons "kept" (.num 1) (.cons "dropped" .undef .nil)) =
      ["kept"] :=
  ⟨rfl,
    objToStruct_definedKeys
      (.cons "kept" (.num 1) (.cons "dropped" .undef .nil)) ⟨false⟩
      (.mk (.cons "kept" (.mk none (.numberValue 1)) .nil)) rfl,
    rfl⟩

/-- C8: encoding a value whose type is none of
null/number/string/boolean/blob/object/array fails with the
`Value of type ... not recognized.` error when `options.stringify` is
false (or absent, since the default is false); when `options.stringify`
is true, `encodeValue_` instead returns a string leaf holding the
value's `String(...)` representation. -/
theorem encodeValue_unrecognized (v : JSVal) (options : EncodeOptions)
    (h : isUnrecognizedType v = true) :
    (options.stringify = false →
        encodeValue_ v options =
          .error ("Value of type " ++ jsTypeof v ++
            " not recognized.")) ∧
    (options.stringify = true →
        encodeValue_ v options =
          .ok (.mk none (.stringValue (jsString v)))) := by
  obtain ⟨stringify⟩ := options
  cases v <;> simp_all [isUnrecognizedType, encodeValue_]

theorem encodeValue_unrecognized_witness :
    isUnrecognizedType (.other "symbol" "Symbol(tag)") = true ∧
    encodeValue_ (.other "symbol" "Symbol(tag)") ⟨false⟩ =
      .error "Value of type symbol not recognized." ∧
    encodeValue_ (.other "symbol" "Symbol(tag)") ⟨true⟩ =
      .ok (.mk none (.stringValue "Symbol(tag)")) :=
  ⟨rfl,
    (encodeValue_unrecognized (.other "symbol" "Symbol(tag)") ⟨false⟩
      rfl).1 rfl,
    (encodeValue_unrecognized (.other "symbol" "Symbol(tag)") ⟨true⟩
      rfl).2 rfl⟩

/-- C9: every array element is re-encoded by `value.map` without a
usable options argument, so `stringify` never applies to list elements:
encoding a list holding an element of an unrecognized type fails for
every `options`, in particular with `stringify` set to true at top
level. -/
theorem encodeValue_list_unrecognized_fails (elems : JSList) (v : JSVal)
    (options : EncodeOptions) (hv : isUnrecognizedType v = true)
    (hm : JSList.Mem v elems) :
    ∃ msg, encodeValue_ (.arr elems) options = .error msg := by
  obtain ⟨msg, hmsg⟩ := encodeListElems_mem_error v elems hm hv
  exact ⟨msg, by simp [encodeValue_, hmsg]⟩

theorem encodeValue_list_unrecognized_fails_witness :
    isUnrecognizedType (.other "function" "fn") = true ∧
    ∃ msg,
      encodeValue_
        (.arr (.cons (.num 3) (.cons (.other "function" "fn") .nil)))
        ⟨true⟩ = .error msg :=
  ⟨rfl,
    encodeValue_list_unrecognized_fails
      (.cons (.num 3) (.cons (.other "function" "fn") .nil))
      (.other "function" "fn") ⟨true⟩ rfl
      (.tail _ _ (.head _))⟩

/-- C10: the object branch of `encodeValue_` calls `objToStruct_` on the
nested object without forwarding `options`, so `stringify` does not
propagate into nested objects: encoding an object one of whose
properties holds an object containing an unrecognized-type value fails
for every `options` of the top-level `objToStruct_` call, in particular
with `stringify` set to true. -/
theorem objToStruct_nested_unrecognized_fails
    (props innerProps : JSFields) (k1 k2 tyName strRep : String)
    (options : EncodeOptions)
    (h1 : JSFields.Mem k1 (.obj innerProps) props)
    (h2 : JSFields.Mem k2 (.other tyName strRep) innerProps) :
    ∃ msg, objToStruct_ props options = .error msg := by
  have hinner : ∃ m, objToStruct_ innerProps {} = .error m :=
    objToStruct_mem_error innerProps k2 (.other tyName strRep) {} h2 rfl
      ⟨_, encodeValue_default_error (.other tyName strRep) rfl⟩
  obtain ⟨m, hm⟩ := hinner
  exact objToStruct_mem_error props k1 (.obj innerProps) options h1 rfl
    ⟨m, by simp [encodeValue_, hm]⟩

theorem objToStruct_nested_unrecognized_fails_witness :
    ∃ msg,
      objToStruct_
        (.cons "outer"
          (.obj (.cons "bad" (.other "symbol" "Symbol(x)") .nil)) .nil)
        ⟨true⟩ = .error msg :=
  objToStruct_nested_unrecognized_fails
    (.cons "outer"
      (.obj (.cons "bad" (.other "symbol" "Symbol(x)") .nil)) .nil)
    (.cons "bad" (.other "symbol" "Symbol(x)") .nil)
    "outer" "bad" "symbol" "Symbol(x)" ⟨true⟩ (.head _) (.head _)
